import Mathlib

/-!
Verification of the RAG medical chatbot core (backend/rag_engine.py and
backend/pdf_processor.py) against its design specification.

External services (embedding model, vector store, generative model, the
filesystem and PDF reader) are modelled as explicit inputs: a function
argument or a data argument describing the outcome of each external call,
including the possibility that the call raises an exception.
-/

/-- Outcome of a call into code that may raise a Python exception:
either a value or an exception carrying its message. -/
inductive PyResult (α : Type) where
  | ok (v : α)
  | exn (msg : String)
deriving DecidableEq

/-- Whitespace characters recognised by Python str.strip() (ASCII range). -/
def isPySpace (c : Char) : Bool :=
  c = ' ' || c = '\t' || c = '\n' || c = '\x0d' || c = '\x0b' || c = '\x0c'

/-- Model of Python str.strip(): remove leading and trailing whitespace. -/
def pyStrip (t : String) : String :=
  String.mk (((t.data.dropWhile isPySpace).reverse.dropWhile isPySpace).reverse)

/-- Model of Python sep.join(xs): elements interleaved with the separator. -/
def pyJoin (sep : String) : List String → String
  | [] => ""
  | [x] => x
  | x :: y :: ys => x ++ sep ++ pyJoin sep (y :: ys)

/-- Metadata dictionary of one vector-store match: the keys "text" and
"source" may each be absent (rag_engine.py lines 46-48 read them with
dict.get and a default). -/
structure MatchMeta where
  text : Option String
  source : Option String
deriving DecidableEq

/-- One match returned by the vector store query; the "metadata" key may be
absent (rag_engine.py line 46: match.get("metadata", \x7b\x7d)). -/
structure RMatch where
  metadata : Option MatchMeta
deriving DecidableEq

/-- Default value of the parameter k of retrieve_relevant_context
(rag_engine.py line 37: def retrieve_relevant_context(self, query, k=5)). -/
def retrieve_default_k : Nat := 5

/-- MedicalRAGEngine.retrieve_relevant_context, lines 42-53 of
rag_engine.py, applied to the list of ms the store returned: the loop
appends each match's metadata text (default "") to context_texts and its
metadata source (default "Unknown") to sources; returns the texts joined
with a blank line, and list(set(sources)).  Python's set iteration order is
unspecified, so the set conversion is modelled by List.dedup (duplicate-free,
no order guarantee intended). -/
def retrieve_relevant_context (ms : List RMatch) : String × List String :=
  let acc := ms.foldl
    (fun (acc : List String × List String) m =>
      let metadata := m.metadata.getD { text := none, source := none }
      (acc.1 ++ [metadata.text.getD ""], acc.2 ++ [metadata.source.getD "Unknown"]))
    ([], [])
  (pyJoin "\n\n" acc.1, acc.2.dedup)

/-- Text of a match as read by the retrieval loop (metadata.get("text", "")). -/
def matchText (m : RMatch) : String :=
  (m.metadata.getD { text := none, source := none }).text.getD ""

/-- Source of a match as read by the retrieval loop
(metadata.get("source", "Unknown")). -/
def matchSource (m : RMatch) : String :=
  (m.metadata.getD { text := none, source := none }).source.getD "Unknown"

/-- Fixed no-context message returned by MedicalRAGEngine.query
(rag_engine.py line 94). -/
def noContextMessage : String :=
  "I couldn\x27t find specific information related to your query in my medical knowledge base. Please consult a healthcare professional for accurate medical advice."

/-- Fixed user-safe error message returned by MedicalRAGEngine.query on any
exception (rag_engine.py line 101). -/
def pipelineErrorMessage : String :=
  "I encountered an error while processing your query. Please try again or rephrase your question."

/-- Fixed fallback message returned by MedicalRAGEngine.generate_response
when the completion text is empty (rag_engine.py line 84). -/
def emptyGenerationMessage : String :=
  "I couldn\x27t generate a response at this time. Please try again later."

/-- One completion choice of the generative service. -/
structure Choice where
  text : String
deriving DecidableEq

/-- Response of together.Complete.create; an absent or empty "choices" key
is modelled as the empty list (both are falsy for response.get("choices")). -/
structure CompletionResponse where
  choices : List Choice
deriving DecidableEq

/-- A value generate_response can return: the bare answer string
(rag_engine.py line 86) or, on empty generation, the pair of the fallback
message and an empty list (line 84 returns a tuple). -/
inductive GenOut where
  | str (s : String)
  | strWithSources (s : String) (sources : List String)
deriving DecidableEq

/-- The answer text carried by a generate_response return value. -/
def GenOut.answerText : GenOut → String
  | .str s => s
  | .strWithSources s _ => s

/-- Post-processing part of MedicalRAGEngine.generate_response
(rag_engine.py lines 81-86): generated_text is the first choice's stripped
text when choices is non-empty (truthy), else ""; empty generated_text
yields the fallback pair, otherwise the text is returned. -/
def generate_response (response : CompletionResponse) : GenOut :=
  let generated_text :=
    match response.choices with
    | [] => ""
    | c :: _ => pyStrip c.text
  if generated_text = "" then .strWithSources emptyGenerationMessage []
  else .str generated_text

/-- Prompt template of MedicalRAGEngine.generate_response
(rag_engine.py lines 57-69). -/
def buildPrompt (query context : String) : String :=
  "You are a helpful medical assistant with access to medical literature. \nAnswer the question based on the provided medical context. \nIf you cannot find the answer in the context, say so clearly and provide general medical information if possible.\nDo not make up information or provide medical advice that\x27s not supported by the context.\n\nCONTEXT:\n"
    ++ context ++ "\n\nQUESTION:\n" ++ query ++ "\n\nANSWER:\n"

/-- MedicalRAGEngine.query (rag_engine.py lines 88-101).  External
behaviour is passed in: storeQuery is the outcome of embedding the query
and querying the vector store (lines 39-40), and complete maps the built
prompt to the outcome of together.Complete.create (line 70).  Any exception
in either is caught by the except-branch, which returns the fixed error
message with an empty source list. -/
def MedicalRAGEngine.query
    (complete : String → PyResult CompletionResponse)
    (storeQuery : PyResult (List RMatch))
    (user_query : String) : GenOut × List String :=
  match storeQuery with
  | .exn _ => (.str pipelineErrorMessage, [])
  | .ok ms =>
      let r := retrieve_relevant_context ms
      if pyStrip r.1 = "" then (.str noContextMessage, [])
      else
        match complete (buildPrompt user_query r.1) with
        | .exn _ => (.str pipelineErrorMessage, [])
        | .ok response => (generate_response response, r.2)

/-! Helper lemmas about the string model and the retrieval loop. -/

lemma string_data_append (s t : String) : (s ++ t).data = s.data ++ t.data := by
  cases s; cases t; rfl

lemma pyStrip_eq_empty_of_all (t : String) (h : ∀ c ∈ t.data, isPySpace c) :
    pyStrip t = "" := by
  unfold pyStrip
  rw [List.dropWhile_eq_nil_iff.mpr h]
  rfl

lemma retrieve_loop (ms : List RMatch) (a b : List String) :
    ms.foldl
      (fun (acc : List String × List String) m =>
        let metadata := m.metadata.getD { text := none, source := none }
        (acc.1 ++ [metadata.text.getD ""], acc.2 ++ [metadata.source.getD "Unknown"]))
      (a, b)
    = (a ++ ms.map matchText, b ++ ms.map matchSource) := by
  induction ms generalizing a b with
  | nil => simp
  | cons m rest ih =>
      simp only [List.foldl_cons, List.map_cons, ih, matchText, matchSource]
      simp

lemma retrieve_eq (ms : List RMatch) :
    retrieve_relevant_context ms
      = (pyJoin "\n\n" (ms.map matchText), (ms.map matchSource).dedup) := by
  unfold retrieve_relevant_context
  rw [retrieve_loop]
  simp

lemma pyJoin_replicate_blank_mem (n : Nat) :
    ∀ c ∈ (pyJoin "\n\n" (List.replicate n "")).data, c = '\n' := by
  induction n with
  | zero => intro c hc; simp [pyJoin] at hc
  | succ m ih =>
      cases m with
      | zero => intro c hc; simp [pyJoin] at hc
      | succ k =>
          intro c hc
          rw [List.replicate_succ, List.replicate_succ] at hc
          simp only [pyJoin, string_data_append] at hc
          rw [List.replicate_succ] at ih
          rcases List.mem_append.mp hc with h1 | h2
          · rcases List.mem_append.mp h1 with h3 | h4
            · simp at h3
            · simpa using h4
          · exact ih c h2

/-! Claim theorems about the query pipeline (rag_engine.py). -/

/-- C1: if the combined context returned by retrieval is empty or
whitespace-only, MedicalRAGEngine.query returns exactly the fixed
no-context message with an empty source list; the conclusion holds for
every behaviour of the generative service (the quantification over
complete), so the generative model is never consulted. -/
theorem query_no_context_short_circuit
    (complete : String → PyResult CompletionResponse)
    (ms : List RMatch) (user_query : String)
    (h : pyStrip (retrieve_relevant_context ms).1 = "") :
    MedicalRAGEngine.query complete (.ok ms) user_query
      = (.str noContextMessage, []) := by
  unfold MedicalRAGEngine.query
  simp [h]

theorem query_no_context_short_circuit_witness :
    MedicalRAGEngine.query (fun _ => .ok { choices := [] }) (.ok []) "q"
      = (.str noContextMessage, []) :=
  query_no_context_short_circuit _ [] "q" (by decide)

/-- C2: if the vector-store call raises, or the generative call raises
after a non-blank context was retrieved, MedicalRAGEngine.query returns
the fixed user-safe error message with an empty source list; the message
is a constant independent of the exception detail e, so no detail of the
exception ever reaches the returned response. -/
theorem query_exception_fixed_message
    (complete : String → PyResult CompletionResponse)
    (ms : List RMatch) (user_query e : String) :
    (MedicalRAGEngine.query complete (.exn e) user_query
        = (.str pipelineErrorMessage, [])) ∧
    (pyStrip (retrieve_relevant_context ms).1 ≠ "" →
      complete (buildPrompt user_query (retrieve_relevant_context ms).1) = .exn e →
      MedicalRAGEngine.query complete (.ok ms) user_query
        = (.str pipelineErrorMessage, [])) := by
  constructor
  · rfl
  · intro h hc
    unfold MedicalRAGEngine.query
    simp [h, hc]

theorem query_exception_fixed_message_witness :
    (MedicalRAGEngine.query (fun _ => .exn "boom") (.exn "boom") "q"
        = (.str pipelineErrorMessage, [])) ∧
    (MedicalRAGEngine.query (fun _ => .exn "boom")
        (.ok [{ metadata := some { text := some "aspirin", source := some "drugA.pdf" } }]) "q"
        = (.str pipelineErrorMessage, [])) :=
  ⟨(query_exception_fixed_message (fun _ => .exn "boom") [] "q" "boom").1,
   (query_exception_fixed_message (fun _ => .exn "boom")
      [{ metadata := some { text := some "aspirin", source := some "drugA.pdf" } }]
      "q" "boom").2 (by decide) rfl⟩

/-- C3: generate_response returns the fixed fallback message as the answer
text when the service returned zero choices or a first choice whose text
strips to empty, and otherwise returns the first choice's text with
surrounding whitespace stripped; being a total function, it raises
nothing. -/
theorem generate_response_policy (response : CompletionResponse) :
    (response.choices = [] →
      (generate_response response).answerText = emptyGenerationMessage) ∧
    (∀ c rest, response.choices = c :: rest → pyStrip c.text = "" →
      (generate_response response).answerText = emptyGenerationMessage) ∧
    (∀ c rest, response.choices = c :: rest → pyStrip c.text ≠ "" →
      generate_response response = .str (pyStrip c.text)) := by
  refine ⟨?_, ?_, ?_⟩
  · intro h
    simp [generate_response, h, GenOut.answerText]
  · intro c rest h hstrip
    simp [generate_response, h, hstrip, GenOut.answerText]
  · intro c rest h hstrip
    simp [generate_response, h, hstrip]

theorem generate_response_policy_witness :
    ((generate_response { choices := [] }).answerText = emptyGenerationMessage) ∧
    ((generate_response { choices := [{ text := "  " }] }).answerText
        = emptyGenerationMessage) ∧
    (generate_response { choices := [{ text := " aspirin \n" }] } = .str "aspirin") :=
  ⟨(generate_response_policy { choices := [] }).1 rfl,
   (generate_response_policy { choices := [{ text := "  " }] }).2.1
      { text := "  " } [] rfl (by decide),
   ((generate_response_policy { choices := [{ text := " aspirin \n" }] }).2.2
      { text := " aspirin \n" } [] rfl (by decide)).trans (by decide)⟩

/-- C4: retrieve_relevant_context returns the matches' metadata texts
(default "") joined in store order by a blank line, and a duplicate-free
source list (default source "Unknown") containing exactly the cited
sources; the parameter k of the store query defaults to 5. -/
theorem retrieve_relevant_context_spec (ms : List RMatch) :
    (retrieve_relevant_context ms).1 = pyJoin "\n\n" (ms.map matchText) ∧
    (retrieve_relevant_context ms).2.Nodup ∧
    (∀ s, s ∈ (retrieve_relevant_context ms).2 ↔ s ∈ ms.map matchSource) ∧
    retrieve_default_k = 5 := by
  refine ⟨?_, ?_, ?_, rfl⟩ <;>
    simp [retrieve_eq, List.nodup_dedup, List.mem_dedup]

/-- C10: when the store returns a non-empty match list whose metadata
texts are all empty, the combined context is just the blank-line
separators, strips to empty, and query answers the fixed no-context
message with an empty source list, discarding the matches' sources. -/
theorem query_discards_sources_on_empty_texts
    (complete : String → PyResult CompletionResponse)
    (ms : List RMatch) (user_query : String)
    (hne : ms ≠ []) (hall : ∀ m ∈ ms, matchText m = "") :
    (retrieve_relevant_context ms).1
        = pyJoin "\n\n" (List.replicate ms.length "") ∧
    pyStrip (retrieve_relevant_context ms).1 = "" ∧
    MedicalRAGEngine.query complete (.ok ms) user_query
      = (.str noContextMessage, []) := by
  have hmap : ms.map matchText = List.replicate ms.length "" := by
    rw [List.eq_replicate_iff]
    exact ⟨ms.length_map _, by simpa using hall⟩
  have h1 : (retrieve_relevant_context ms).1
      = pyJoin "\n\n" (List.replicate ms.length "") := by
    rw [retrieve_eq, hmap]
  have h2 : pyStrip (retrieve_relevant_context ms).1 = "" := by
    rw [h1]
    refine pyStrip_eq_empty_of_all _ (fun c hc => ?_)
    rw [pyJoin_replicate_blank_mem ms.length c hc]
    rfl
  refine ⟨h1, h2, ?_⟩
  unfold MedicalRAGEngine.query
  simp [h2]

theorem query_discards_sources_on_empty_texts_witness :
    MedicalRAGEngine.query (fun _ => .ok { choices := [] })
        (.ok [{ metadata := some { text := some "", source := some "drugA.pdf" } }]) "q"
      = (.str noContextMessage, []) :=
  (query_discards_sources_on_empty_texts (fun _ => .ok { choices := [] })
    [{ metadata := some { text := some "", source := some "drugA.pdf" } }] "q"
    (by decide) (by decide)).2.2

/-! Embedding of backend/pdf_processor.py. -/

/-- A document produced by the extractor: extracted text plus the source
file's basename (pdf_processor.py lines 30-33). -/
structure Document where
  text : String
  source : String
deriving DecidableEq

/-- One file of the ingestion directory, carrying its basename and the
outcome of extract_text_from_pdf on it (the PDF reader is external and may
raise). -/
structure DirFile where
  name : String
  extract : PyResult String
deriving DecidableEq

/-- Check that a file name carries the ".pdf" suffix, matching the glob
pattern "*.pdf" of pdf_processor.py line 23. -/
def hasPdfSuffix (name : String) : Bool :=
  List.isSuffixOf ".pdf".data name.data

/-- process_pdfs_directory (pdf_processor.py lines 21-40): glob keeps only
files whose name ends in ".pdf"; for each, a raised extraction error is
caught and logged (the file is skipped); extracted text whose strip is
falsy (empty) is skipped with a warning; otherwise the document
(text, basename) is appended.  File names are modelled by their basenames,
so os.path.basename(os.path.join(dir, name)) = name. -/
def process_pdfs_directory (files : List DirFile) : List Document :=
  (files.filter (fun f => hasPdfSuffix f.name)).foldl
    (fun documents f =>
      match f.extract with
      | .ok text =>
          if pyStrip text = "" then documents
          else documents ++ [{ text := text, source := f.name }]
      | .exn _ => documents)
    []

/-- Modelled from the spec: the Chunker delegates splitting to langchain's
RecursiveCharacterTextSplitter, which is not part of this repository's
sources.  The spec describes it as greedy splitting "such that no chunk
exceeds chunk_size and consecutive chunks overlap by approximately
chunk_overlap characters"; modelled at the raw character-cut level as
greedy windows of at most s characters advancing by step = s - o
characters, with a fuel argument bounding the recursion (fuel len + 1 is
enough whenever step ≥ 1). -/
def splitCharsAux (s step : Nat) : Nat → List Char → List (List Char)
  | 0, _ => []
  | fuel + 1, cs =>
      if cs = [] then []
      else if cs.length ≤ s then [cs]
      else cs.take s :: splitCharsAux s step fuel (cs.drop step)

/-- Modelled from the spec: splitting one document's text into chunk texts
with chunk_size s and chunk_overlap o (see splitCharsAux). -/
def splitText (s o : Nat) (t : String) : List String :=
  (splitCharsAux s (s - o) (t.data.length + 1) t.data).map String.mk

/-- Metadata attached to a chunk (pdf_processor.py lines 60-64). -/
structure ChunkMetadata where
  source : String
  chunk_index : Nat
  text : String
deriving DecidableEq

/-- A chunk record (pdf_processor.py lines 57-65). -/
structure Chunk where
  id : String
  text : String
  metadata : ChunkMetadata
deriving DecidableEq

/-- chunk_documents (pdf_processor.py lines 42-68): for each document in
order, split its text and emit one chunk per split with zero-based
chunk_index and metadata carrying the source and the split text.  Each
chunk's id is str(uuid.uuid4()); the external uuid generator is modelled
as a supply of id strings consumed in generation order (the k-th chunk
created gets the k-th supplied id). -/
def chunk_documents (chunk_size chunk_overlap : Nat) (uuids : List String)
    (documents : List Document) : List Chunk :=
  let noId := documents.bind (fun doc =>
    (splitText chunk_size chunk_overlap doc.text).enum.map (fun p =>
      (p.2, ({ source := doc.source, chunk_index := p.1, text := p.2 } : ChunkMetadata))))
  noId.enum.map (fun q => { id := uuids.getD q.1 "", text := q.2.1, metadata := q.2.2 })

/-- An index of the vector store: name, vector dimension and metric. -/
structure IndexSpec where
  name : String
  dimension : Nat
  metric : String
deriving DecidableEq

/-- State of the external vector store: the indexes it lists. -/
structure StoreState where
  indexes : List IndexSpec
deriving DecidableEq

/-- initialize_pinecone (pdf_processor.py lines 70-91): if the configured
index name is not among the listed indexes, create it with dimension 1024
and metric "cosine"; in both cases connect and return a handle to the
named index (the handle is modelled by the index name). -/
def initialize_pinecone (index_name : String) (st : StoreState) : StoreState × String :=
  let existing_indexes := st.indexes.map (fun i => i.name)
  if index_name ∈ existing_indexes then (st, index_name)
  else ({ indexes := st.indexes ++ [{ name := index_name, dimension := 1024, metric := "cosine" }] },
        index_name)

/-- Batching loop of embed_and_upload (pdf_processor.py lines 113-118):
for i in range(0, len(l), bs): upsert(l[i:i+bs]).  The returned list holds
the successive upsert payloads; fuel bounds the recursion (fuel = l.length
is enough whenever bs ≥ 1). -/
def batchesAux {α : Type} (bs : Nat) : Nat → List α → List (List α)
  | 0, _ => []
  | _ + 1, [] => []
  | fuel + 1, x :: xs =>
      (x :: xs).take bs :: batchesAux bs fuel ((x :: xs).drop bs)

/-- embed_and_upload (pdf_processor.py lines 93-120): embed the chunk
texts (embed_documents is the external embedding service, order-preserving
with one vector per text), zip chunks with their vectors into
(id, vector, metadata) records, and upsert them in batches of 100.  The
value returned is the list of upsert payloads issued, in order. -/
def embed_and_upload {V : Type} (embed_documents : List String → List V)
    (chunks : List Chunk) : List (List (String × V × ChunkMetadata)) :=
  let texts := chunks.map (fun c => c.text)
  let vectors := embed_documents texts
  let to_upsert := (chunks.zip vectors).map (fun p => (p.1.id, p.2, p.1.metadata))
  batchesAux 100 to_upsert.length to_upsert


/-! Helper lemmas for the ingestion pipeline. -/

lemma process_loop (files : List DirFile) (acc : List Document) :
    files.foldl
      (fun documents f =>
        match f.extract with
        | .ok text =>
            if pyStrip text = "" then documents
            else documents ++ [{ text := text, source := f.name }]
        | .exn _ => documents)
      acc
    = acc ++ files.filterMap (fun f =>
        match f.extract with
        | .ok text =>
            if pyStrip text = "" then none
            else some { text := text, source := f.name }
        | .exn _ => none) := by
  induction files generalizing acc with
  | nil => simp
  | cons f rest ih =>
      cases hf : f.extract with
      | ok t =>
          by_cases hs : pyStrip t = "" <;>
            simp [List.foldl_cons, List.filterMap_cons, hf, hs, ih, List.append_assoc]
      | exn e => simp [List.foldl_cons, List.filterMap_cons, hf, ih]

lemma process_eq (files : List DirFile) :
    process_pdfs_directory files
      = (files.filter (fun f => hasPdfSuffix f.name)).filterMap (fun f =>
          match f.extract with
          | .ok text =>
              if pyStrip text = "" then none
              else some { text := text, source := f.name }
          | .exn _ => none) := by
  unfold process_pdfs_directory
  rw [process_loop]
  simp

/-- C9: processing a directory keeps only files named *.pdf; a raised
extraction error for one file leaves the result of the others unchanged;
files whose text strips to empty are skipped; and every returned document
carries non-whitespace text paired with its source file's basename. -/
theorem process_pdfs_directory_spec :
    (∀ (files : List DirFile) (d : Document), d ∈ process_pdfs_directory files →
      pyStrip d.text ≠ "" ∧
      ∃ f ∈ files, hasPdfSuffix f.name = true ∧ f.extract = .ok d.text ∧ d.source = f.name) ∧
    (∀ (pre post : List DirFile) (bad : DirFile) (e : String), bad.extract = .exn e →
      process_pdfs_directory (pre ++ bad :: post) = process_pdfs_directory (pre ++ post)) ∧
    (∀ (pre post : List DirFile) (f : DirFile), ¬ hasPdfSuffix f.name = true →
      process_pdfs_directory (pre ++ f :: post) = process_pdfs_directory (pre ++ post)) ∧
    (∀ (pre post : List DirFile) (f : DirFile) (t : String),
      f.extract = .ok t → pyStrip t = "" →
      process_pdfs_directory (pre ++ f :: post) = process_pdfs_directory (pre ++ post)) := by
  refine ⟨?_, ?_, ?_, ?_⟩
  · intro files d hd
    rw [process_eq] at hd
    obtain ⟨f, hf, hsome⟩ := List.mem_filterMap.mp hd
    obtain ⟨hmem, hpdf⟩ := List.mem_filter.mp hf
    cases hx : f.extract with
    | ok t =>
        rw [hx] at hsome
        dsimp only at hsome
        by_cases hs : pyStrip t = ""
        · rw [if_pos hs] at hsome
          exact absurd hsome (by simp)
        · rw [if_neg hs] at hsome
          obtain rfl := Option.some.inj hsome
          exact ⟨hs, f, hmem, hpdf, hx, rfl⟩
    | exn e =>
        rw [hx] at hsome
        simp at hsome
  · intro pre post bad e hb
    rw [process_eq, process_eq, List.filter_append, List.filter_append, List.filter_cons]
    by_cases hp : hasPdfSuffix bad.name
    · simp [hp, List.filterMap_append, List.filterMap_cons, hb]
    · simp [hp]
  · intro pre post f hp
    rw [process_eq, process_eq, List.filter_append, List.filter_append, List.filter_cons]
    simp [hp]
  · intro pre post f t hf hs
    rw [process_eq, process_eq, List.filter_append, List.filter_append, List.filter_cons]
    by_cases hp : hasPdfSuffix f.name
    · simp [hp, List.filterMap_append, List.filterMap_cons, hf, hs]
    · simp [hp]

theorem process_pdfs_directory_spec_witness :
    (pyStrip (Document.mk "Aspirin reduces fever." "a.pdf").text ≠ "" ∧
      ∃ f ∈ [DirFile.mk "a.pdf" (.ok "Aspirin reduces fever.")],
        hasPdfSuffix f.name = true ∧
        f.extract = .ok (Document.mk "Aspirin reduces fever." "a.pdf").text ∧
        (Document.mk "Aspirin reduces fever." "a.pdf").source = f.name) ∧
    (process_pdfs_directory
        [DirFile.mk "a.pdf" (.ok "Aspirin reduces fever."), DirFile.mk "bad.pdf" (.exn "unreadable")]
      = process_pdfs_directory [DirFile.mk "a.pdf" (.ok "Aspirin reduces fever.")]) ∧
    (process_pdfs_directory
        [DirFile.mk "a.pdf" (.ok "Aspirin reduces fever."), DirFile.mk "notes.txt" (.ok "plain text")]
      = process_pdfs_directory [DirFile.mk "a.pdf" (.ok "Aspirin reduces fever.")]) ∧
    (process_pdfs_directory
        [DirFile.mk "a.pdf" (.ok "Aspirin reduces fever."), DirFile.mk "blank.pdf" (.ok " \n ")]
      = process_pdfs_directory [DirFile.mk "a.pdf" (.ok "Aspirin reduces fever.")]) :=
  ⟨process_pdfs_directory_spec.1 [DirFile.mk "a.pdf" (.ok "Aspirin reduces fever.")]
      (Document.mk "Aspirin reduces fever." "a.pdf") (by decide),
   process_pdfs_directory_spec.2.1 [DirFile.mk "a.pdf" (.ok "Aspirin reduces fever.")] []
      (DirFile.mk "bad.pdf" (.exn "unreadable")) "unreadable" rfl,
   process_pdfs_directory_spec.2.2.1 [DirFile.mk "a.pdf" (.ok "Aspirin reduces fever.")] []
      (DirFile.mk "notes.txt" (.ok "plain text")) (by decide),
   process_pdfs_directory_spec.2.2.2 [DirFile.mk "a.pdf" (.ok "Aspirin reduces fever.")] []
      (DirFile.mk "blank.pdf" (.ok " \n ")) " \n " rfl (by decide)⟩

/-! Helper lemmas for the splitter model and chunk_documents. -/

lemma splitCharsAux_nil (s step fuel : Nat) : splitCharsAux s step fuel [] = [] := by
  cases fuel <;> simp [splitCharsAux]

lemma splitCharsAux_chunk_le (s step : Nat) :
    ∀ (fuel : Nat) (cs : List Char), ∀ c ∈ splitCharsAux s step fuel cs, c.length ≤ s := by
  intro fuel
  induction fuel with
  | zero => intro cs c hc; simp [splitCharsAux] at hc
  | succ n ih =>
      intro cs c hc
      by_cases h0 : cs = []
      · simp [splitCharsAux, h0] at hc
      · by_cases h1 : cs.length ≤ s
        · simp [splitCharsAux, h0, h1] at hc
          subst hc
          exact h1
        · simp only [splitCharsAux, if_neg h0, if_neg h1] at hc
          rcases List.mem_cons.mp hc with h | h
          · subst h
            rw [List.length_take]
            exact min_le_left _ _
          · exact ih _ c h

lemma splitCharsAux_single (s step fuel : Nat) (cs : List Char)
    (h0 : cs ≠ []) (h1 : cs.length ≤ s) :
    splitCharsAux s step (fuel + 1) cs = [cs] := by
  simp [splitCharsAux, h0, h1]

lemma string_eq_empty_iff (t : String) : t = "" ↔ t.data = [] := by
  constructor
  · intro h; subst h; rfl
  · intro h
    cases t with
    | mk data => cases h; rfl

lemma splitText_all_le (s o : Nat) (t : String) :
    ∀ u ∈ splitText s o t, u.length ≤ s := by
  intro u hu
  obtain ⟨cs, hcs, rfl⟩ := List.mem_map.mp hu
  exact splitCharsAux_chunk_le s (s - o) _ t.data cs hcs

lemma splitText_single (s o : Nat) (t : String) (h0 : t ≠ "") (h1 : t.length ≤ s) :
    splitText s o t = [t] := by
  unfold splitText
  rw [splitCharsAux_single s (s - o) t.data.length t.data
      (fun h => h0 ((string_eq_empty_iff t).mpr h)) h1]
  rfl

lemma splitText_empty (s o : Nat) : splitText s o "" = [] := by
  unfold splitText
  rw [splitCharsAux_nil]
  rfl

lemma chunk_documents_texts (s o : Nat) (uuids : List String) (docs : List Document) :
    (chunk_documents s o uuids docs).map (fun c => c.text)
      = docs.bind (fun d => splitText s o d.text) := by
  unfold chunk_documents
  rw [List.map_map]
  have h1 : ((fun c : Chunk => c.text) ∘ fun q : Nat × (String × ChunkMetadata) =>
      ({ id := uuids.getD q.1 "", text := q.2.1, metadata := q.2.2 } : Chunk))
      = (fun p : String × ChunkMetadata => p.1) ∘ Prod.snd := rfl
  rw [h1, ← List.map_map, List.enum_map_snd, List.map_bind]
  congr 1
  funext d
  rw [List.map_map]
  have h2 : ((fun p : String × ChunkMetadata => p.1) ∘ fun p : Nat × String =>
      (p.2, ({ source := d.source, chunk_index := p.1, text := p.2 } : ChunkMetadata)))
      = Prod.snd := rfl
  rw [h2, List.enum_map_snd]

lemma chunk_documents_indices (s o : Nat) (uuids : List String) (docs : List Document) :
    (chunk_documents s o uuids docs).map (fun c => c.metadata.chunk_index)
      = docs.bind (fun d => List.range (splitText s o d.text).length) := by
  unfold chunk_documents
  rw [List.map_map]
  have h1 : ((fun c : Chunk => c.metadata.chunk_index) ∘ fun q : Nat × (String × ChunkMetadata) =>
      ({ id := uuids.getD q.1 "", text := q.2.1, metadata := q.2.2 } : Chunk))
      = (fun p : String × ChunkMetadata => p.2.chunk_index) ∘ Prod.snd := rfl
  rw [h1, ← List.map_map, List.enum_map_snd, List.map_bind]
  congr 1
  funext d
  rw [List.map_map]
  have h2 : ((fun p : String × ChunkMetadata => p.2.chunk_index) ∘ fun p : Nat × String =>
      (p.2, ({ source := d.source, chunk_index := p.1, text := p.2 } : ChunkMetadata)))
      = Prod.fst := rfl
  rw [h2, List.enum_map_fst]

lemma chunk_documents_length (s o : Nat) (uuids : List String) (docs : List Document) :
    (chunk_documents s o uuids docs).length
      = (docs.bind (fun d => splitText s o d.text)).length := by
  conv_lhs => rw [← List.length_map (chunk_documents s o uuids docs) (fun c => c.text)]
  rw [chunk_documents_texts]

lemma chunk_documents_ids (s o : Nat) (uuids : List String) (docs : List Document) :
    (chunk_documents s o uuids docs).map (fun c => c.id)
      = (List.range (chunk_documents s o uuids docs).length).map (fun k => uuids.getD k "") := by
  rw [chunk_documents_length]
  unfold chunk_documents
  rw [List.map_map]
  have h1 : ((fun c : Chunk => c.id) ∘ fun q : Nat × (String × ChunkMetadata) =>
      ({ id := uuids.getD q.1 "", text := q.2.1, metadata := q.2.2 } : Chunk))
      = (fun k => uuids.getD k "") ∘ Prod.fst := rfl
  rw [h1, ← List.map_map, List.enum_eq_zip_range, List.map_fst_zip _ _ (by rw [List.length_range])]
  congr 2
  simp only [List.length_bind]
  refine congrArg List.sum (List.map_congr_left (fun d _ => ?_))
  simp [Function.comp, List.length_map, List.enum_length]

/-- C7: for chunk parameters 0 ≤ o < s, every chunk text produced from a
document has length at most s; a non-empty document of length at most s
yields exactly one chunk whose text is the whole document; and an empty
document yields no chunks. -/
theorem chunking_size_bounds (s o : Nat) (uuids : List String) (d : Document)
    (ho : o < s) :
    (∀ c ∈ chunk_documents s o uuids [d], c.text.length ≤ s) ∧
    (d.text ≠ "" → d.text.length ≤ s →
      ∃ c, chunk_documents s o uuids [d] = [c] ∧ c.text = d.text) ∧
    (d.text = "" → chunk_documents s o uuids [d] = []) := by
  refine ⟨?_, ?_, ?_⟩
  · intro c hc
    have hmem : c.text ∈ (chunk_documents s o uuids [d]).map (fun c => c.text) :=
      List.mem_map_of_mem _ hc
    rw [chunk_documents_texts] at hmem
    simp only [List.cons_bind, List.nil_bind, List.append_nil] at hmem
    exact splitText_all_le s o d.text _ hmem
  · intro h0 h1
    have hsplit := splitText_single s o d.text h0 h1
    refine ⟨{ id := uuids.getD 0 "", text := d.text,
              metadata := { source := d.source, chunk_index := 0, text := d.text } }, ?_, rfl⟩
    unfold chunk_documents
    simp [hsplit, List.enum_singleton]
  · intro h0
    unfold chunk_documents
    simp [h0, splitText_empty]

theorem chunking_size_bounds_witness :
    ∃ c, chunk_documents 5 2 ["u0"] [Document.mk "abc" "a.pdf"] = [c] ∧
      c.text = (Document.mk "abc" "a.pdf").text :=
  (chunking_size_bounds 5 2 ["u0"] (Document.mk "abc" "a.pdf") (by decide)).2.1
    (by decide) (by decide)

/-- C8: for a non-empty document list, when the uuid supply is
duplicate-free and large enough (the external contract of uuid4), the ids
of the produced chunks are pairwise distinct, and the chunk_index values
are, document by document in order, exactly 0, 1, ..., giving a zero-based
monotone numbering within each source document. -/
theorem chunk_ids_unique_and_indices (s o : Nat) (uuids : List String)
    (docs : List Document) (hne : docs ≠ []) (hnd : uuids.Nodup)
    (hlen : (chunk_documents s o uuids docs).length ≤ uuids.length) :
    ((chunk_documents s o uuids docs).map (fun c => c.id)).Nodup ∧
    (chunk_documents s o uuids docs).map (fun c => c.metadata.chunk_index)
      = docs.bind (fun d => List.range (splitText s o d.text).length) := by
  refine ⟨?_, chunk_documents_indices s o uuids docs⟩
  rw [chunk_documents_ids]
  refine List.Nodup.map_on ?_ (List.nodup_range _)
  intro x hx y hy hxy
  rw [List.mem_range] at hx hy
  have hx2 : x < uuids.length := lt_of_lt_of_le hx hlen
  have hy2 : y < uuids.length := lt_of_lt_of_le hy hlen
  rw [List.getD_eq_get uuids "" hx2, List.getD_eq_get uuids "" hy2] at hxy
  exact congrArg Fin.val (hnd.get_inj_iff.mp hxy)

theorem chunk_ids_unique_and_indices_witness :
    ((chunk_documents 5 2 ["u0", "u1"] [Document.mk "ab" "a.pdf"]).map (fun c => c.id)).Nodup ∧
    (chunk_documents 5 2 ["u0", "u1"] [Document.mk "ab" "a.pdf"]).map
        (fun c => c.metadata.chunk_index)
      = [Document.mk "ab" "a.pdf"].bind (fun d => List.range (splitText 5 2 d.text).length) :=
  chunk_ids_unique_and_indices 5 2 ["u0", "u1"] [Document.mk "ab" "a.pdf"]
    (by decide) (by decide) (by decide)

/-- C6: initialize_pinecone is idempotent: when the configured name is
already listed it connects without creating anything; otherwise it creates
exactly one index with that name, dimension 1024 and metric "cosine"; in
both cases the returned handle is the named index, and running it again on
the resulting store changes nothing. -/
theorem initialize_pinecone_spec (index_name : String) (st : StoreState) :
    (index_name ∈ st.indexes.map (fun i => i.name) →
      initialize_pinecone index_name st = (st, index_name)) ∧
    (index_name ∉ st.indexes.map (fun i => i.name) →
      initialize_pinecone index_name st
        = ({ indexes := st.indexes
              ++ [{ name := index_name, dimension := 1024, metric := "cosine" }] },
           index_name)) ∧
    initialize_pinecone index_name (initialize_pinecone index_name st).1
      = ((initialize_pinecone index_name st).1, index_name) := by
  refine ⟨?_, ?_, ?_⟩
  · intro h
    simp [initialize_pinecone, h]
  · intro h
    simp [initialize_pinecone, h]
  · by_cases h : index_name ∈ st.indexes.map (fun i => i.name)
    · simp [initialize_pinecone, h]
    · have h2 : index_name ∈
          (st.indexes ++ [({ name := index_name, dimension := 1024, metric := "cosine" } : IndexSpec)]).map
            (fun i : IndexSpec => i.name) := by
        simp
      simp [initialize_pinecone, h, h2]

theorem initialize_pinecone_spec_witness :
    (initialize_pinecone "medical" (StoreState.mk [IndexSpec.mk "medical" 1024 "cosine"])
      = (StoreState.mk [IndexSpec.mk "medical" 1024 "cosine"], "medical")) ∧
    (initialize_pinecone "medical" (StoreState.mk [])
      = (StoreState.mk [IndexSpec.mk "medical" 1024 "cosine"], "medical")) :=
  ⟨(initialize_pinecone_spec "medical" (StoreState.mk [IndexSpec.mk "medical" 1024 "cosine"])).1
      (by decide),
   (initialize_pinecone_spec "medical" (StoreState.mk [])).2.1 (by decide)⟩

/-! Helper lemmas for the upload batching loop. -/

lemma batchesAux_nil {α : Type} (bs fuel : Nat) : batchesAux bs fuel ([] : List α) = [] := by
  cases fuel <;> rfl

lemma batchesAux_step {α : Type} (bs fuel : Nat) (l : List α) (h : l ≠ []) :
    batchesAux bs (fuel + 1) l = l.take bs :: batchesAux bs fuel (l.drop bs) := by
  cases l with
  | nil => exact absurd rfl h
  | cons x xs => rfl

lemma batchesAux_batch_le {α : Type} (bs : Nat) :
    ∀ (fuel : Nat) (l : List α), ∀ b ∈ batchesAux bs fuel l, b.length ≤ bs := by
  intro fuel
  induction fuel with
  | zero => intro l b hb; simp [batchesAux] at hb
  | succ n ih =>
      intro l b hb
      cases l with
      | nil => simp [batchesAux] at hb
      | cons x xs =>
          rw [batchesAux_step _ _ _ (by simp)] at hb
          rcases List.mem_cons.mp hb with h | h
          · subst h
            rw [List.length_take]
            exact min_le_left _ _
          · exact ih _ b h

lemma batchesAux_join {α : Type} (bs : Nat) (hbs : 1 ≤ bs) :
    ∀ (fuel : Nat) (l : List α), l.length ≤ fuel → (batchesAux bs fuel l).join = l := by
  intro fuel
  induction fuel with
  | zero =>
      intro l hl
      rw [List.length_eq_zero.mp (Nat.le_zero.mp hl)]
      rfl
  | succ n ih =>
      intro l hl
      cases l with
      | nil => rfl
      | cons x xs =>
          have hdrop : ((x :: xs).drop bs).length ≤ n := by
            rw [List.length_drop]
            simp only [List.length_cons] at hl ⊢
            omega
          have hjoin : (List.take bs (x :: xs) :: batchesAux bs n (List.drop bs (x :: xs))).join
              = List.take bs (x :: xs) ++ (batchesAux bs n (List.drop bs (x :: xs))).join := rfl
          rw [batchesAux_step _ _ _ (by simp), hjoin, ih _ hdrop, List.take_append_drop]

lemma batches_of_250 {α : Type} (l : List α) (hl : l.length = 250) :
    (batchesAux 100 l.length l).map List.length = [100, 100, 50] := by
  have h1 : l ≠ [] := by
    intro h
    rw [h] at hl
    simp at hl
  rw [hl, show (250 : Nat) = 249 + 1 from rfl, batchesAux_step _ _ _ h1]
  have hd1 : (l.drop 100).length = 150 := by rw [List.length_drop, hl]
  have h2 : l.drop 100 ≠ [] := by
    intro h
    rw [h] at hd1
    simp at hd1
  rw [show (249 : Nat) = 248 + 1 from rfl, batchesAux_step _ _ _ h2]
  have hd2 : ((l.drop 100).drop 100).length = 50 := by rw [List.length_drop, hd1]
  have h3 : (l.drop 100).drop 100 ≠ [] := by
    intro h
    rw [h] at hd2
    simp at hd2
  rw [show (248 : Nat) = 247 + 1 from rfl, batchesAux_step _ _ _ h3]
  have hd3 : ((l.drop 100).drop 100).drop 100 = [] :=
    List.drop_eq_nil_of_le (by rw [hd2]; omega)
  rw [hd3, batchesAux_nil]
  simp [List.length_take, hl, hd1, hd2]

/-- C5: when the embedding service returns one vector per chunk text (its
documented contract), the records upserted by embed_and_upload are, in
order, the i-th chunk's id and metadata paired with the i-th embedding
(the flattened payloads equal the zip of chunks with their vectors), each
upsert call carries at most 100 records, and 250 chunks produce exactly
the three calls of sizes 100, 100 and 50. -/
theorem embed_and_upload_spec {V : Type} (embed_documents : List String → List V)
    (chunks : List Chunk)
    (hv : (embed_documents (chunks.map (fun c => c.text))).length = chunks.length) :
    ((embed_and_upload embed_documents chunks).join
        = (chunks.zip (embed_documents (chunks.map (fun c => c.text)))).map
            (fun p => (p.1.id, p.2, p.1.metadata))) ∧
    (∀ b ∈ embed_and_upload embed_documents chunks, b.length ≤ 100) ∧
    (chunks.length = 250 →
      (embed_and_upload embed_documents chunks).map List.length = [100, 100, 50]) := by
  refine ⟨?_, ?_, ?_⟩
  · simp only [embed_and_upload]
    exact batchesAux_join 100 (by omega) _ _ (le_refl _)
  · intro b hb
    simp only [embed_and_upload] at hb
    exact batchesAux_batch_le 100 _ _ b hb
  · intro h250
    simp only [embed_and_upload]
    apply batches_of_250
    rw [List.length_map, List.length_zip, hv, Nat.min_self, h250]

theorem embed_and_upload_spec_witness :
    (embed_and_upload (fun ts => ts.map (fun _ => (0 : Nat)))
        ((List.range 250).map (fun i =>
          ({ id := toString i, text := "t",
             metadata := { source := "s", chunk_index := i, text := "t" } } : Chunk)))).map
        List.length = [100, 100, 50] :=
  (embed_and_upload_spec (fun ts => ts.map (fun _ => (0 : Nat)))
      ((List.range 250).map (fun i =>
        ({ id := toString i, text := "t",
           metadata := { source := "s", chunk_index := i, text := "t" } } : Chunk)))
      (by simp)).2.2 (by simp)
